import Mathlib

/-!
Verification of the dirble scan-pipeline core against its specification.

The definitions below are a shallow embedding of the three source files
`src/lib.rs`, `src/request.rs` and `src/output_format.rs`:

* `RequestResponse` mirrors the struct of the same name in `request.rs`,
  with `u32`/`usize` fields modelled as `Nat` and `Url` modelled as the
  underlying URL string (`url.as_str()`).
* The HTTP transport (`curl::Easy2`) is modelled as an oracle
  `Transport : String → HttpResult`; a `failure` result corresponds to a
  curl error, a `success` result carries the response code, the redirect
  `Location` value and the response body.
* HTML link scraping (`content_parse::scrape_urls`, out of scope for the
  core) is modelled as an opaque function parameter
  `scrape : String → String → List String` (lowercased body, directory
  URL) wherever `listable_check` consumes it.
* The in-process recursion of `listable_check` is embedded with an
  explicit fuel argument; only recursive descents consume fuel, and the
  model additionally records the list of scraped URLs that the code
  descends into, so that depth-bound properties can be stated.
-/

namespace Dirble

/-- Mirror of `request.rs` struct `RequestResponse` (the "Finding"). -/
structure RequestResponse where
  url : String
  code : Nat
  content_len : Nat
  is_directory : Bool
  is_listable : Bool
  redirect_url : String
  found_from_listable : Bool
  parent_index : Nat
  parent_depth : Nat
deriving Repr, DecidableEq

/-- Number of occurrences of a slash in a string, as counted by Rust
`s.matches(Char('/')).count()`. -/
def countSlashes (s : String) : Nat :=
  s.data.countP (fun c => c = '/')

/-- Rust `str::ends_with(c : char)`. -/
def endsWithChar (s : String) (c : Char) : Bool :=
  s.data.getLast? = some c

/-- Rust `str::starts_with(c : char)`. -/
def startsWithChar (s : String) (c : Char) : Bool :=
  s.data.head? = some c

/-- Mirror of `RequestResponse::get_depth` in `request.rs` (returns `i32`,
modelled as `Int`). -/
def RequestResponse.get_depth (r : RequestResponse) : Int :=
  let depth : Int := (countSlashes r.url : Int)
  let depth := if endsWithChar r.url '/' then depth - 1 else depth
  depth - (r.parent_depth : Int) - 1

/-- ANSI bold wrapper, as produced by the `colored` crate when colouring
is active (`"L ".bold()`). -/
def bold_str (s : String) : String :=
  "\x1b[1m" ++ s ++ "\x1b[0m"

/-- ANSI colour wrapper used by `output_suffix` for the status code,
matching the `colored` crate output for green/cyan/red/yellow. -/
def ansi_wrap (codeNum : String) (s : String) : String :=
  "\x1b[" ++ codeNum ++ "m" ++ s ++ "\x1b[0m"

/-- Mirror of `output_format.rs` `output_indentation`. -/
def output_indentation (response : RequestResponse)
    (print_newlines indentation : Bool) : String :=
  let output := if response.is_directory && print_newlines then "\n" else ""
  if !indentation then output
  else
    let depth := response.get_depth
    if depth ≤ 0 then output
    else output ++ String.join (List.replicate depth.toNat "  ")

/-- Mirror of `output_format.rs` `output_letter`; `colors` models whether
the `colored` crate is emitting escape codes for this terminal. -/
def output_letter (colors : Bool) (response : RequestResponse) : String :=
  if response.is_directory && response.is_listable then
    (if colors then bold_str "L " else "L ")
  else if response.is_directory then "D "
  else if response.found_from_listable then "~ "
  else "+ "

/-- Colouring of the code string in `output_suffix` (match on code ranges). -/
def color_code_string (code : Nat) (s : String) : String :=
  if 200 ≤ code ∧ code ≤ 299 then ansi_wrap "32" s
  else if 300 ≤ code ∧ code ≤ 399 then ansi_wrap "36" s
  else if 400 ≤ code ∧ code ≤ 499 then ansi_wrap "31" s
  else if 500 ≤ code ∧ code ≤ 599 then ansi_wrap "33" s
  else s

/-- Mirror of `output_format.rs` `output_suffix`. -/
def output_suffix (response : RequestResponse) (color : Bool) : String :=
  if response.found_from_listable then "(SCRAPED)"
  else
    let code_string := toString response.code
    let code_string := if color then color_code_string response.code code_string
      else code_string
    if response.code = 301 ∨ response.code = 302 then
      "(CODE:" ++ code_string ++ "|SIZE:" ++ toString response.content_len ++
        "|DEST:" ++ response.redirect_url ++ ")"
    else
      "(CODE:" ++ code_string ++ "|SIZE:" ++ toString response.content_len ++ ")"

/-- Hex digit value, as used by percent decoding. -/
def hexVal (c : Char) : Option Nat :=
  if '0' ≤ c ∧ c ≤ '9' then some (c.toNat - '0'.toNat)
  else if 'a' ≤ c ∧ c ≤ 'f' then some (c.toNat - 'a'.toNat + 10)
  else if 'A' ≤ c ∧ c ≤ 'F' then some (c.toNat - 'A'.toNat + 10)
  else none

/-- Character-level model of the `percent_encoding` crate's
`percent_decode`: a valid `%XX` hex escape becomes the character with
that code, everything else passes through. -/
def percentDecodeAux : List Char → List Char
  | [] => []
  | '%' :: a :: b :: rest =>
    match hexVal a, hexVal b with
    | some x, some y => Char.ofNat (16 * x + y) :: percentDecodeAux rest
    | _, _ => '%' :: percentDecodeAux (a :: b :: rest)
  | c :: rest => c :: percentDecodeAux rest

/-- Model of `percent_decode(s.as_bytes()).decode_utf8().unwrap()`. -/
def percent_decode (s : String) : String :=
  String.mk (percentDecodeAux s.data)

/-- Abstract outcome of one curl transfer: a transport failure, or a
response with code, redirect destination (`Location`) and body. -/
inductive HttpResult where
  | failure : HttpResult
  | success : Nat → String → String → HttpResult
deriving Repr, DecidableEq

/-- The HTTP transport, modelled as a deterministic oracle from URL to
transfer outcome. -/
abbrev Transport := String → HttpResult

/-- Body delivered into the collector buffer by a transfer (empty when the
transfer failed, since the buffer is cleared before each request). -/
def transportBody (t : Transport) (url : String) : String :=
  match t url with
  | .failure => ""
  | .success _ _ body => body

/-- Mirror of `request.rs` `make_request`. -/
def make_request (t : Transport) (url : String) : RequestResponse :=
  match t url with
  | .failure =>
    { url := url, code := 0, content_len := 0, is_directory := false,
      is_listable := false, redirect_url := "", found_from_listable := false,
      parent_index := 0, parent_depth := 0 }
  | .success code redirect body =>
    let req_response : RequestResponse :=
      { url := url, code := code, content_len := 0, is_directory := false,
        is_listable := false, redirect_url := "", found_from_listable := false,
        parent_index := 0, parent_depth := 0 }
    let req_response :=
      if code = 301 ∨ code = 302 then
        let redir_dest := percent_decode redirect
        let dir_url := percent_decode (url ++ "/")
        { req_response with
            is_directory := decide (dir_url = redir_dest),
            redirect_url := redir_dest }
      else req_response
    { req_response with content_len := body.data.length }

/-- Mirror of `request.rs` `fabricate_request_response`. -/
def fabricate_request_response (url : String)
    (is_directory is_listable : Bool) : RequestResponse :=
  { url := url, code := 0, content_len := 0, is_directory := is_directory,
    is_listable := is_listable, redirect_url := "",
    found_from_listable := true, parent_index := 0, parent_depth := 0 }

/-- Character-list prefix test used by the substring model below. -/
def isPrefOf : List Char → List Char → Bool
  | [], _ => true
  | _ :: _, [] => false
  | a :: as, b :: bs => a = b && isPrefOf as bs

/-- Character-list model of Rust `str::contains(needle)` (`h` haystack,
`n` needle). -/
def containsSubAux (n : List Char) : List Char → Bool
  | [] => n.isEmpty
  | c :: rest => isPrefOf n (c :: rest) || containsSubAux n rest

/-- Rust `str::contains` on strings. -/
def containsSub (h n : String) : Bool :=
  containsSubAux n.data h.data

/-- Rust `String::to_lowercase` (at the character level). -/
def strToLower (s : String) : String :=
  String.mk (s.data.map Char.toLower)

/-- The fixed directory-listing markers tested by `listable_check` on the
lowercased body. -/
def markers_found (content : String) : Bool :=
  containsSub content "parent directory" || containsSub content "up to " ||
    containsSub content "directory listing for"

/-- Directory form of a URL: a trailing slash is appended when missing
(the `dir_url` computation at the top of `listable_check`). -/
def dirUrlOf (url : String) : String :=
  if endsWithChar url '/' then url else url ++ "/"

/-- Depth computed by `listable_check` for a scraped URL (`i32` in the
source, modelled as `Int`). -/
def scraped_depth (scraped_url : String) (parent_depth : Int) : Int :=
  let depth : Int := (countSlashes scraped_url : Int)
  let depth := if endsWithChar scraped_url '/' then depth - 1 else depth
  depth - parent_depth

/-- The loop over scraped URLs at the bottom of `listable_check`.
`rec_fn` stands for the recursive call on a scraped directory URL; it
returns the produced findings together with the descent log. -/
def scrapedLoop (rec_fn : String → List RequestResponse × List String)
    (max_recursion_depth : Option Int) (parent_depth : Int) :
    List String → List RequestResponse × List String
  | [] => ([], [])
  | scraped_url :: rest =>
    let here :=
      if !endsWithChar scraped_url '/' then
        ([fabricate_request_response scraped_url false false], [])
      else
        match max_recursion_depth with
        | some max_depth =>
          if max_depth < scraped_depth scraped_url parent_depth then
            ([fabricate_request_response scraped_url true false], [])
          else rec_fn scraped_url
        | none => rec_fn scraped_url
    let there := scrapedLoop rec_fn max_recursion_depth parent_depth rest
    (here.1 ++ there.1, here.2 ++ there.2)

/-- Body of `request.rs` `listable_check`, with the recursive call
abstracted as `rec_fn`.  The second component of the result is the log of
scraped URLs the code descends into. -/
def listableBody (t : Transport) (scrape : String → String → List String)
    (max_recursion_depth : Option Int) (parent_depth : Int)
    (scrape_listable : Bool)
    (rec_fn : String → List RequestResponse × List String)
    (original_url : String) : List RequestResponse × List String :=
  let dir_url := dirUrlOf original_url
  let response := make_request t dir_url
  let content := strToLower (transportBody t dir_url)
  if response.code = 200 then
    if markers_found content then
      if scrape_listable then
        (({ response with is_listable := true, is_directory := true }) ::
            (scrapedLoop rec_fn max_recursion_depth parent_depth
              (scrape content dir_url)).1,
          (scrapedLoop rec_fn max_recursion_depth parent_depth
            (scrape content dir_url)).2)
      else ([{ response with is_listable := true, is_directory := true }], [])
    else ([{ response with is_listable := false, is_directory := true }], [])
  else ([{ response with is_directory := true, is_listable := false }], [])

/-- Mirror of `request.rs` `listable_check`, fuelled.  The fuel bounds
only the recursion depth of the embedding (the Rust recursion carries no
such bound); a descent attempted with no fuel left contributes no
findings but is still recorded in the descent log. -/
def listable_check (t : Transport) (scrape : String → String → List String)
    (max_recursion_depth : Option Int) (parent_depth : Int)
    (scrape_listable : Bool) : Nat → String → List RequestResponse × List String
  | 0, original_url =>
    listableBody t scrape max_recursion_depth parent_depth scrape_listable
      (fun u => ([], [u])) original_url
  | fuel + 1, original_url =>
    listableBody t scrape max_recursion_depth parent_depth scrape_listable
      (fun u =>
        let res := listable_check t scrape max_recursion_depth parent_depth
          scrape_listable fuel u
        (res.1, u :: res.2))
      original_url

/-- The per-word normalization loop in `dirble_main`: remove the first
character when it is a slash, then remove the last character when it is a
slash (each at most once). -/
def strip_word (word : String) : String :=
  let word := if startsWithChar word '/' then String.mk (word.data.drop 1)
    else word
  if endsWithChar word '/' then String.mk word.data.dropLast else word

/-- Lexicographic comparison of character lists by code point; this is
the order Rust `Vec::<String>::sort` uses (byte order on UTF-8 agrees
with code-point order). -/
def charsLe : List Char → List Char → Bool
  | [], _ => true
  | _ :: _, [] => false
  | a :: as, b :: bs =>
    if a < b then true else if b < a then false else charsLe as bs

/-- String comparison induced by `charsLe`. -/
def wordLe (a b : String) : Bool :=
  charsLe a.data b.data

/-- Propositional form of `wordLe`, for use with `List.insertionSort`. -/
abbrev wordLeR : String → String → Prop :=
  fun a b => wordLe a b = true

instance : DecidableRel wordLeR :=
  fun a b => instDecidableEqBool (wordLe a b) true

/-- Rust `Vec::dedup`: collapse runs of consecutive equal elements. -/
def rustDedup : List String → List String
  | [] => []
  | [a] => [a]
  | a :: b :: rest =>
    if a = b then rustDedup (b :: rest) else a :: rustDedup (b :: rest)

/-- The wordlist bootstrap normalization of `dirble_main`: strip one
leading and one trailing slash from every word, sort, remove consecutive
duplicates. -/
def normalize_wordlist (wordlist : List String) : List String :=
  rustDedup (List.insertionSort wordLeR (wordlist.map strip_word))

/-- The slice of `GlobalOpts` consulted by `add_dir_to_scan_queue`. -/
structure GlobalOpts where
  hostnames : List String
  prefixes : List String
  extensions : List String
  max_threads : Nat
  wordlist_split : Nat
  extension_substitution : Bool
deriving Repr, DecidableEq

/-- Mirror of `validator_thread::DirectoryInfo` (the validator profile is
not consulted by `add_dir_to_scan_queue` and is omitted). -/
structure DirectoryInfo where
  url : String
  parent_index : Nat
  parent_depth : Nat
deriving Repr, DecidableEq

/-- Mirror of `wordlist::UriGenerator` as constructed by
`UriGenerator::new` (the validator clone is omitted; `pre` is the prefix
argument). -/
structure UriGenerator where
  base_url : String
  pre : String
  extension : String
  wordlist : List String
  start_index : Nat
  split : Nat
  parent_index : Nat
  parent_depth : Nat
  extension_substitution : Bool
deriving Repr, DecidableEq

/-- Mirror of `lib.rs` `add_dir_to_scan_queue`; returns the generators
pushed onto the scan queue, in push order. -/
def add_dir_to_scan_queue (global_opts : GlobalOpts)
    (dir_info : DirectoryInfo) (wordlist : List String)
    (first_run : Bool) : List UriGenerator :=
  let num_hosts := global_opts.hostnames.length
  let wordlist_split :=
    if first_run && decide (3 ≤ global_opts.max_threads) &&
        decide (global_opts.wordlist_split * num_hosts <
          global_opts.max_threads - 2) then
      (global_opts.max_threads - 2) / num_hosts
    else global_opts.wordlist_split
  global_opts.prefixes.flatMap (fun p =>
    global_opts.extensions.flatMap (fun e =>
      (List.range wordlist_split).map (fun start_index =>
        { base_url := dir_info.url, pre := p, extension := e,
          wordlist := wordlist, start_index := start_index,
          split := wordlist_split, parent_index := dir_info.parent_index,
          parent_depth := dir_info.parent_depth,
          extension_substitution := global_opts.extension_substitution })))

/-- Default value used only to read the head of a finding list. -/
def emptyResponse : RequestResponse :=
  { url := "", code := 0, content_len := 0, is_directory := false,
    is_listable := false, redirect_url := "", found_from_listable := false,
    parent_index := 0, parent_depth := 0 }

/-- C6: on a transport failure (curl error), `make_request` returns a
Finding with code 0, content_len 0, all classification flags false and an
empty redirect URL, instead of propagating the error. -/
theorem make_request_transport_failure (t : Transport) (url : String)
    (h : t url = HttpResult.failure) :
    make_request t url =
      { url := url, code := 0, content_len := 0, is_directory := false,
        is_listable := false, redirect_url := "",
        found_from_listable := false, parent_index := 0,
        parent_depth := 0 } := by
  simp [make_request, h]

theorem make_request_transport_failure_witness :
    make_request (fun _ => HttpResult.failure) "http://x/a" =
      { url := "http://x/a", code := 0, content_len := 0,
        is_directory := false, is_listable := false, redirect_url := "",
        found_from_listable := false, parent_index := 0,
        parent_depth := 0 } :=
  make_request_transport_failure (fun _ => HttpResult.failure) "http://x/a" rfl

/-- Modelled from the spec: the sink contract for the HTTP response
suffix, written independently of the source function. -/
def suffix_format_spec (r : RequestResponse) : String :=
  if r.found_from_listable then "(SCRAPED)"
  else if r.code = 301 ∨ r.code = 302 then
    "(CODE:" ++ toString r.code ++ "|SIZE:" ++ toString r.content_len ++
      "|DEST:" ++ r.redirect_url ++ ")"
  else
    "(CODE:" ++ toString r.code ++ "|SIZE:" ++ toString r.content_len ++ ")"

/-- C7: the sink suffix is `(CODE:n|SIZE:len)` in general,
`(CODE:n|SIZE:len|DEST:d)` for 301/302, and the literal `(SCRAPED)` when
the finding was scraped; in particular code 201 / size 456 gives
`(CODE:201|SIZE:456)` and code 301 / size 456 / dest `https://n.com`
gives `(CODE:301|SIZE:456|DEST:https://n.com)`. -/
theorem output_suffix_matches_contract (r : RequestResponse) :
    output_suffix r false = suffix_format_spec r
    ∧ output_suffix
        { url := "http://x/", code := 201, content_len := 456,
          is_directory := false, is_listable := false, redirect_url := "",
          found_from_listable := false, parent_index := 0,
          parent_depth := 0 } false = "(CODE:201|SIZE:456)"
    ∧ output_suffix
        { url := "http://x/", code := 301, content_len := 456,
          is_directory := false, is_listable := false,
          redirect_url := "https://n.com", found_from_listable := false,
          parent_index := 0, parent_depth := 0 } false =
      "(CODE:301|SIZE:456|DEST:https://n.com)" := by
  refine ⟨?_, rfl, rfl⟩
  simp [output_suffix, suffix_format_spec]

/-- Modelled from the spec: the classification-letter contract, written
independently of the source function. -/
def letter_spec (r : RequestResponse) : String :=
  if r.is_directory && r.is_listable then "L "
  else if r.is_directory then "D "
  else if r.found_from_listable then "~ "
  else "+ "

/-- C8: the classification letter is `L ` for a listable directory, else
`D ` for a directory, else `~ ` for a scraped finding, else `+ `, all
with a trailing space and checked in that precedence order. -/
theorem output_letter_matches_contract (r : RequestResponse) :
    output_letter false r = letter_spec r := by
  simp [output_letter, letter_spec]

/-- Modelled from the spec: the depth formula of the indentation
contract, before clamping. -/
def spec_depth (r : RequestResponse) : Int :=
  (countSlashes r.url : Int) - (if endsWithChar r.url '/' then 1 else 0) -
    (r.parent_depth : Int) - 1

/-- The claim's first example finding: `http://h/a/b/c`, parent_depth 1. -/
def c4_example : RequestResponse :=
  { url := "http://h/a/b/c", code := 200, content_len := 100,
    is_directory := false, is_listable := false, redirect_url := "",
    found_from_listable := false, parent_index := 0, parent_depth := 1 }

/-- The claim's second example finding: `http://h/a/b/c/`, parent_depth 1. -/
def c4_example_slash : RequestResponse :=
  { url := "http://h/a/b/c/", code := 200, content_len := 100,
    is_directory := false, is_listable := false, redirect_url := "",
    found_from_listable := false, parent_index := 0, parent_depth := 1 }

/-- C4 counterexample: for `http://h/a/b/c` with parent_depth 1 the code
computes depth 3 (the URL has 5 slashes), not 2 as claimed, and likewise
for the trailing-slash variant; the sink indents by 3 levels. -/
theorem get_depth_example_counterexample :
    ¬ c4_example.get_depth = 2 ∧ c4_example.get_depth = 3 ∧
      ¬ c4_example_slash.get_depth = 2 ∧ c4_example_slash.get_depth = 3 ∧
      output_indentation c4_example false true = "      " := by
  decide

/-- C4 amended: the indentation depth used by the sink equals
slash_count(url) minus (1 if url ends with a slash) minus parent_depth
minus 1, clamped at zero; for the two example URLs with parent_depth 1
the computed depth is 3 (not 2). -/
theorem output_indentation_depth_formula (r : RequestResponse) (pn : Bool) :
    output_indentation r pn true =
      (if r.is_directory && pn then "\n" else "") ++
        String.join (List.replicate (max (spec_depth r) 0).toNat "  ")
    ∧ c4_example.get_depth = 3 ∧ c4_example_slash.get_depth = 3 := by
  refine ⟨?_, by decide, by decide⟩
  have hd : r.get_depth = spec_depth r := by
    unfold RequestResponse.get_depth spec_depth
    by_cases h : endsWithChar r.url '/' <;> simp [h]
  simp only [output_indentation, Bool.not_true, hd]
  by_cases hle : spec_depth r ≤ 0
  · have hmax : max (spec_depth r) 0 = 0 := max_eq_right hle
    simp [hle, hmax, String.join]
  · have hmax : max (spec_depth r) 0 = spec_depth r :=
      max_eq_left (le_of_not_le hle)
    simp [hle, hmax]

/-- C1: when a directory enters the scan queue with first_run true,
max_threads at least 3 and wordlist_split times host_count below
max_threads minus 2, every enqueued generator carries shard count
(max_threads - 2) / host_count (floor division); in every other case
(first_run false included) the configured wordlist_split is used
verbatim; and for one host with wordlist [a, b], max_threads 4 and
wordlist_split 1, exactly two generators are enqueued for the single
(prefix, extension) pair. -/
theorem add_dir_shard_count (g : GlobalOpts) (dir_info : DirectoryInfo)
    (wl : List String) (first_run : Bool) :
    (first_run = true → 3 ≤ g.max_threads →
      g.wordlist_split * g.hostnames.length < g.max_threads - 2 →
      ∀ gen ∈ add_dir_to_scan_queue g dir_info wl first_run,
        gen.split = (g.max_threads - 2) / g.hostnames.length)
    ∧ (¬ (first_run = true ∧ 3 ≤ g.max_threads ∧
          g.wordlist_split * g.hostnames.length < g.max_threads - 2) →
      ∀ gen ∈ add_dir_to_scan_queue g dir_info wl first_run,
        gen.split = g.wordlist_split)
    ∧ add_dir_to_scan_queue
        { hostnames := ["http://x/"], prefixes := [""], extensions := [""],
          max_threads := 4, wordlist_split := 1,
          extension_substitution := false }
        { url := "http://x/", parent_index := 0, parent_depth := 1 }
        ["a", "b"] true =
      [{ base_url := "http://x/", pre := "", extension := "",
         wordlist := ["a", "b"], start_index := 0, split := 2,
         parent_index := 0, parent_depth := 1,
         extension_substitution := false },
       { base_url := "http://x/", pre := "", extension := "",
         wordlist := ["a", "b"], start_index := 1, split := 2,
         parent_index := 0, parent_depth := 1,
         extension_substitution := false }] := by
  have key : ∀ gen ∈ add_dir_to_scan_queue g dir_info wl first_run,
      gen.split =
        (if first_run && decide (3 ≤ g.max_threads) &&
            decide (g.wordlist_split * g.hostnames.length <
              g.max_threads - 2) then
          (g.max_threads - 2) / g.hostnames.length
        else g.wordlist_split) := by
    intro gen hg
    simp only [add_dir_to_scan_queue, List.mem_flatMap, List.mem_map,
      List.mem_range] at hg
    obtain ⟨p, _, e, _, i, _, rfl⟩ := hg
    rfl
  refine ⟨?_, ?_, by decide⟩
  · intro h1 h2 h3 gen hg
    rw [key gen hg, if_pos]
    simp [h1, h2, h3]
  · intro hneg gen hg
    rw [key gen hg, if_neg]
    intro hb
    simp only [Bool.and_eq_true, decide_eq_true_eq] at hb
    exact hneg ⟨hb.1.1, hb.1.2, hb.2⟩

theorem add_dir_shard_count_witness :
    (UriGenerator.mk "http://x/" "" "" ["a", "b"] 0 2 0 1 false).split = 2 :=
  (add_dir_shard_count
      { hostnames := ["http://x/"], prefixes := [""], extensions := [""],
        max_threads := 4, wordlist_split := 1,
        extension_substitution := false }
      { url := "http://x/", parent_index := 0, parent_depth := 1 }
      ["a", "b"] true).1 rfl (by decide) (by decide)
    (UriGenerator.mk "http://x/" "" "" ["a", "b"] 0 2 0 1 false) (by decide)

theorem charsLe_cons (a b : Char) (as bs : List Char) :
    charsLe (a :: as) (b :: bs) =
      if a < b then true else if b < a then false else charsLe as bs := rfl

theorem charsLe_total : ∀ x y : List Char, charsLe x y = true ∨ charsLe y x = true
  | [], _ => Or.inl rfl
  | _ :: _, [] => Or.inr rfl
  | a :: as, b :: bs => by
    rw [charsLe_cons, charsLe_cons]
    rcases lt_trichotomy a b with hab | hab | hab
    · left; rw [if_pos hab]
    · subst hab
      rw [if_neg (lt_irrefl a), if_neg (lt_irrefl a), if_neg (lt_irrefl a),
        if_neg (lt_irrefl a)]
      exact charsLe_total as bs
    · right; rw [if_pos hab]

theorem charsLe_trans : ∀ x y z : List Char, charsLe x y = true →
    charsLe y z = true → charsLe x z = true
  | [], _, _ => fun _ _ => rfl
  | _ :: _, [], _ => fun h _ => by simp [charsLe] at h
  | _ :: _, _ :: _, [] => fun _ h => by simp [charsLe] at h
  | a :: as, b :: bs, c :: cs => fun h1 h2 => by
    rw [charsLe_cons] at h1 h2 ⊢
    rcases lt_trichotomy a b with hab | hab | hab
    · rcases lt_trichotomy b c with hbc | hbc | hbc
      · rw [if_pos (lt_trans hab hbc)]
      · subst hbc; rw [if_pos hab]
      · rw [if_neg (lt_asymm hbc), if_pos hbc] at h2; exact absurd h2 (by simp)
    · subst hab
      rcases lt_trichotomy a c with hac | hac | hac
      · rw [if_pos hac]
      · subst hac
        rw [if_neg (lt_irrefl a), if_neg (lt_irrefl a)] at h1 h2 ⊢
        exact charsLe_trans as bs cs h1 h2
      · rw [if_neg (lt_asymm hac), if_pos hac] at h2; exact absurd h2 (by simp)
    · rw [if_neg (lt_asymm hab), if_pos hab] at h1; exact absurd h1 (by simp)

theorem charsLe_antisymm : ∀ x y : List Char, charsLe x y = true →
    charsLe y x = true → x = y
  | [], [], _, _ => rfl
  | [], _ :: _, _, h => by simp [charsLe] at h
  | _ :: _, [], h, _ => by simp [charsLe] at h
  | a :: as, b :: bs, h1, h2 => by
    rw [charsLe_cons] at h1 h2
    rcases lt_trichotomy a b with hab | hab | hab
    · rw [if_neg (lt_asymm hab), if_pos hab] at h2; exact absurd h2 (by simp)
    · subst hab
      rw [if_neg (lt_irrefl a), if_neg (lt_irrefl a)] at h1 h2
      rw [charsLe_antisymm as bs h1 h2]
    · rw [if_neg (lt_asymm hab), if_pos hab] at h1; exact absurd h1 (by simp)

theorem wordLe_antisymm (x y : String) : wordLeR x y → wordLeR y x → x = y := by
  intro h1 h2
  have h := charsLe_antisymm x.data y.data h1 h2
  cases x; cases y; exact congrArg String.mk h

instance : IsTotal String wordLeR :=
  ⟨fun a b => charsLe_total a.data b.data⟩

instance : IsTrans String wordLeR :=
  ⟨fun a b c => charsLe_trans a.data b.data c.data⟩

theorem mem_rustDedup : ∀ l (x : String), x ∈ rustDedup l → x ∈ l
  | [], x => by simp [rustDedup]
  | [a], x => by simp [rustDedup]
  | a :: b :: rest, x => by
    intro hx
    rw [rustDedup] at hx
    by_cases hab : a = b
    · rw [if_pos hab] at hx
      exact List.mem_cons_of_mem a (mem_rustDedup (b :: rest) x hx)
    · rw [if_neg hab] at hx
      rcases List.mem_cons.mp hx with rfl | hx
      · exact List.mem_cons_self _ _
      · exact List.mem_cons_of_mem a (mem_rustDedup (b :: rest) x hx)

theorem rustDedup_pairwise : ∀ l : List String, l.Pairwise wordLeR →
    (rustDedup l).Pairwise (fun a b => wordLeR a b ∧ a ≠ b)
  | [] => fun _ => by simp [rustDedup]
  | [a] => fun _ => by simp [rustDedup]
  | a :: b :: rest => fun hp => by
    have hp1 := (List.pairwise_cons.mp hp).1
    have hp2 := (List.pairwise_cons.mp hp).2
    rw [rustDedup]
    by_cases hab : a = b
    · rw [if_pos hab]
      exact rustDedup_pairwise (b :: rest) hp2
    · rw [if_neg hab]
      refine List.pairwise_cons.mpr ⟨?_, rustDedup_pairwise (b :: rest) hp2⟩
      intro z hz
      have hzmem := mem_rustDedup (b :: rest) z hz
      refine ⟨hp1 z hzmem, ?_⟩
      rcases List.mem_cons.mp hzmem with rfl | hzr
      · exact hab
      · intro hEq
        have hbz : wordLeR b z := (List.pairwise_cons.mp hp2).1 z hzr
        have hab' : wordLeR a b := hp1 b (List.mem_cons_self _ _)
        exact hab (wordLe_antisymm a b hab' (hEq ▸ hbz))

/-- C3 counterexample: the normalization strips only one leading and one
trailing slash per word, so the input line `//a` yields the entry `/a`,
which still begins with a slash. -/
theorem normalize_wordlist_slash_counterexample :
    normalize_wordlist ["//a"] = ["/a"] ∧
      startsWithChar "/a" '/' = true := by
  decide

/-- C3 amended: after the bootstrap normalization the wordlist is sorted
lexicographically and contains no duplicates, and every entry is an input
word with at most one leading and at most one trailing slash removed (so
an entry can still begin or end with a slash when the input word carried
repeated slashes). -/
theorem normalize_wordlist_normalized (wordlist : List String) :
    List.Sorted wordLeR (normalize_wordlist wordlist)
    ∧ (normalize_wordlist wordlist).Nodup
    ∧ ∀ w ∈ normalize_wordlist wordlist, ∃ v ∈ wordlist, w = strip_word v := by
  have hsorted : (List.insertionSort wordLeR (wordlist.map strip_word)).Pairwise wordLeR :=
    List.sorted_insertionSort wordLeR (wordlist.map strip_word)
  have hstrict := rustDedup_pairwise _ hsorted
  refine ⟨hstrict.imp (fun h => h.1), hstrict.imp (fun h => h.2), ?_⟩
  intro w hw
  have hmem := mem_rustDedup _ w hw
  rw [List.mem_insertionSort] at hmem
  rcases List.mem_map.mp hmem with ⟨v, hv, hvw⟩
  exact ⟨v, hv, hvw.symm⟩

theorem normalize_wordlist_normalized_witness :
    ∃ v ∈ ["/b/", "a", "a"], "b" = strip_word v :=
  (normalize_wordlist_normalized ["/b/", "a", "a"]).2.2 "b" (by decide)

theorem scrapedLoop_fst_mem (rec_fn : String → List RequestResponse × List String)
    (md : Option Int) (pd : Int) :
    ∀ (l : List String) (r : RequestResponse),
      r ∈ (scrapedLoop rec_fn md pd l).1 →
      (∃ u b, u ∈ l ∧ r = fabricate_request_response u b false)
      ∨ ∃ u ∈ l, r ∈ (rec_fn u).1
  | [], r => by simp [scrapedLoop]
  | u :: rest, r => by
    intro hr
    simp only [scrapedLoop, List.mem_append] at hr
    have step : ∀ h, h ∈ (scrapedLoop rec_fn md pd rest).1 →
        (∃ v b, v ∈ u :: rest ∧ h = fabricate_request_response v b false)
        ∨ ∃ v ∈ u :: rest, h ∈ (rec_fn v).1 := by
      intro h hh
      rcases scrapedLoop_fst_mem rec_fn md pd rest h hh with ⟨v, b, hv, hvb⟩ | ⟨v, hv, hvr⟩
      · exact Or.inl ⟨v, b, List.mem_cons_of_mem u hv, hvb⟩
      · exact Or.inr ⟨v, List.mem_cons_of_mem u hv, hvr⟩
    rcases hr with hr | hr
    · split at hr
      · rcases List.mem_singleton.mp hr with rfl
        exact Or.inl ⟨u, false, List.mem_cons_self _ _, rfl⟩
      · split at hr
        · split at hr
          · rcases List.mem_singleton.mp hr with rfl
            exact Or.inl ⟨u, true, List.mem_cons_self _ _, rfl⟩
          · exact Or.inr ⟨u, List.mem_cons_self _ _, hr⟩
        · exact Or.inr ⟨u, List.mem_cons_self _ _, hr⟩
    · exact step r hr

theorem scrapedLoop_snd_mem (rec_fn : String → List RequestResponse × List String)
    (md : Option Int) (pd : Int) :
    ∀ (l : List String) (u' : String),
      u' ∈ (scrapedLoop rec_fn md pd l).2 →
      ∃ u, u ∈ l ∧ u' ∈ (rec_fn u).2 ∧ endsWithChar u '/' = true ∧
        ∀ m, md = some m → scraped_depth u pd ≤ m
  | [], u' => by simp [scrapedLoop]
  | u :: rest, u' => by
    intro hu
    simp only [scrapedLoop, List.mem_append] at hu
    have step : u' ∈ (scrapedLoop rec_fn md pd rest).2 →
        ∃ v, v ∈ u :: rest ∧ u' ∈ (rec_fn v).2 ∧ endsWithChar v '/' = true ∧
          ∀ m, md = some m → scraped_depth v pd ≤ m := by
      intro hh
      rcases scrapedLoop_snd_mem rec_fn md pd rest u' hh with ⟨v, hv, h2, h3, h4⟩
      exact ⟨v, List.mem_cons_of_mem u hv, h2, h3, h4⟩
    rcases hu with hu | hu
    · split at hu
      · simp at hu
      · rename_i hslash
        rw [Bool.not_eq_true', Bool.not_eq_false] at hslash
        split at hu
        · split at hu
          · simp at hu
          · rename_i hdepth
            refine ⟨u, List.mem_cons_self _ _, hu, hslash, ?_⟩
            intro m' hm'
            cases hm'
            omega
        · refine ⟨u, List.mem_cons_self _ _, hu, hslash, ?_⟩
          intro m' hm'
          cases hm'
    · exact step hu

theorem scrapedLoop_deep_fabricated
    (rec_fn : String → List RequestResponse × List String) (m pd : Int) :
    ∀ (l : List String) (u : String), u ∈ l → endsWithChar u '/' = true →
      m < scraped_depth u pd →
      fabricate_request_response u true false ∈
        (scrapedLoop rec_fn (some m) pd l).1
  | [], u => by simp
  | v :: rest, u => by
    intro hu hslash hdeep
    simp only [scrapedLoop, List.mem_append]
    rcases List.mem_cons.mp hu with rfl | hu
    · left
      rw [if_neg (by simp [hslash]), if_pos hdeep]
      exact List.mem_singleton.mpr rfl
    · right
      exact scrapedLoop_deep_fabricated rec_fn m pd rest u hu hslash hdeep

theorem listableBody_first (t : Transport)
    (scrape : String → String → List String) (md : Option Int) (pd : Int)
    (sl : Bool) (rec_fn : String → List RequestResponse × List String)
    (url : String) :
    (listableBody t scrape md pd sl rec_fn url).1 ≠ []
    ∧ (listableBody t scrape md pd sl rec_fn url).1.headD emptyResponse =
      { make_request t (dirUrlOf url) with
          is_directory := true,
          is_listable :=
            decide ((make_request t (dirUrlOf url)).code = 200) &&
              markers_found (strToLower (transportBody t (dirUrlOf url))) } := by
  simp only [listableBody]
  split
  · rename_i h200
    split
    · rename_i hmark
      split
      · exact ⟨by simp, by simp [h200, hmark]⟩
      · exact ⟨by simp, by simp [h200, hmark]⟩
    · rename_i hmark
      rw [Bool.not_eq_true] at hmark
      exact ⟨by simp, by simp [h200, hmark]⟩
  · rename_i h200
    refine ⟨by simp, by simp [h200]⟩

theorem listableBody_fst_mem (t : Transport)
    (scrape : String → String → List String) (md : Option Int) (pd : Int)
    (sl : Bool) (rec_fn : String → List RequestResponse × List String)
    (url : String) (r : RequestResponse) :
    r ∈ (listableBody t scrape md pd sl rec_fn url).1 →
    (∃ b, r = { make_request t (dirUrlOf url) with
        is_directory := true, is_listable := b })
    ∨ r ∈ (scrapedLoop rec_fn md pd
        (scrape (strToLower (transportBody t (dirUrlOf url)))
          (dirUrlOf url))).1 := by
  simp only [listableBody]
  intro h
  split at h
  · split at h
    · split at h
      · rcases List.mem_cons.mp h with rfl | h
        · exact Or.inl ⟨true, rfl⟩
        · exact Or.inr h
      · rcases List.mem_singleton.mp h with rfl
        exact Or.inl ⟨true, rfl⟩
    · rcases List.mem_singleton.mp h with rfl
      exact Or.inl ⟨false, rfl⟩
  · rcases List.mem_singleton.mp h with rfl
    exact Or.inl ⟨false, rfl⟩

theorem listableBody_snd_sub (t : Transport)
    (scrape : String → String → List String) (md : Option Int) (pd : Int)
    (sl : Bool) (rec_fn : String → List RequestResponse × List String)
    (url : String) (u' : String) :
    u' ∈ (listableBody t scrape md pd sl rec_fn url).2 →
    u' ∈ (scrapedLoop rec_fn md pd
      (scrape (strToLower (transportBody t (dirUrlOf url)))
        (dirUrlOf url))).2 := by
  simp only [listableBody]
  intro h
  split at h
  · split at h
    · split at h
      · exact h
      · simp at h
    · simp at h
  · simp at h

theorem listable_check_fst_mem (t : Transport)
    (scrape : String → String → List String) (md : Option Int) (pd : Int)
    (sl : Bool) :
    ∀ (fuel : Nat) (url : String) (r : RequestResponse),
      r ∈ (listable_check t scrape md pd sl fuel url).1 →
      (∃ du b, r = { make_request t du with
          is_directory := true, is_listable := b })
      ∨ ∃ u b, r = fabricate_request_response u b false
  | 0, url, r => by
    intro h
    simp only [listable_check] at h
    rcases listableBody_fst_mem t scrape md pd sl _ url r h with ⟨b, hb⟩ | h
    · exact Or.inl ⟨dirUrlOf url, b, hb⟩
    · rcases scrapedLoop_fst_mem _ md pd _ r h with ⟨u, b, _, hub⟩ | ⟨u, _, hur⟩
      · exact Or.inr ⟨u, b, hub⟩
      · simp at hur
  | fuel + 1, url, r => by
    intro h
    simp only [listable_check] at h
    rcases listableBody_fst_mem t scrape md pd sl _ url r h with ⟨b, hb⟩ | h
    · exact Or.inl ⟨dirUrlOf url, b, hb⟩
    · rcases scrapedLoop_fst_mem _ md pd _ r h with ⟨u, b, _, hub⟩ | ⟨u, _, hur⟩
      · exact Or.inr ⟨u, b, hub⟩
      · exact listable_check_fst_mem t scrape md pd sl fuel u r hur

/-- Transport used for the C2 counterexample: every URL answers 301 with
a redirect to an unrelated host. -/
def c2_transport : Transport := fun _ => HttpResult.success 301 "http://other/" ""

/-- First finding returned by `listable_check` under `c2_transport`. -/
def c2_finding : RequestResponse :=
  (listable_check c2_transport (fun _ _ => []) none 0 false 0
    "http://x/a").1.headD emptyResponse

/-- C2 counterexample: `listable_check` marks its probed URL as a
directory on any non-200 code, so a 301 finding whose redirect
destination is not url plus slash still has is_directory true. -/
theorem redirect_directory_iff_counterexample :
    c2_finding.code = 301 ∧ c2_finding.is_directory = true ∧
      c2_finding.url = "http://x/a/" ∧
      c2_finding.redirect_url = "http://other/" ∧
      percent_decode ("http://x/a/" ++ "/") ≠ percent_decode "http://other/" := by
  decide

/-- C2 amended: for Findings returned by `make_request` with code 301 or
302, is_directory holds iff the percent-decoded redirect destination
equals the percent-decoded url with a trailing slash appended; Findings
returned by `listable_check` with code 301 or 302 instead always have
is_directory true, regardless of the redirect destination. -/
theorem redirect_directory_iff (t : Transport) (url : String) (code : Nat)
    (redirect body : String)
    (hsucc : t url = HttpResult.success code redirect body)
    (hcode : code = 301 ∨ code = 302) :
    ((make_request t url).is_directory = true ↔
      percent_decode (url ++ "/") = percent_decode redirect)
    ∧ ∀ (u : Transport) (scrape : String → String → List String)
        (md : Option Int) (pd : Int) (sl : Bool) (fuel : Nat) (v : String)
        (r : RequestResponse),
        r ∈ (listable_check u scrape md pd sl fuel v).1 →
        (r.code = 301 ∨ r.code = 302) → r.is_directory = true := by
  constructor
  · simp only [make_request, hsucc]
    rcases hcode with rfl | rfl <;> simp
  · intro u scrape md pd sl fuel v r hr hc
    rcases listable_check_fst_mem u scrape md pd sl fuel v r hr with
      ⟨du, b, rfl⟩ | ⟨w, b, rfl⟩
    · rfl
    · simp [fabricate_request_response] at hc

/-- Transport used for the C2 witness: a directory-style 301. -/
def c2w_transport : Transport :=
  fun _ => HttpResult.success 301 "http://x/admin/" ""

theorem redirect_directory_iff_witness :
    (make_request c2w_transport "http://x/admin").is_directory = true ↔
      percent_decode ("http://x/admin" ++ "/") =
        percent_decode "http://x/admin/" :=
  (redirect_directory_iff c2w_transport "http://x/admin" 301 "http://x/admin/"
    "" rfl (Or.inl rfl)).1

/-- C9: when the directory GET returns 200, is_listable is set on the
resulting Finding iff the lowercased body contains one of the markers
parent directory, up to , directory listing for. -/
theorem listable_markers_detection (t : Transport)
    (scrape : String → String → List String) (md : Option Int) (pd : Int)
    (sl : Bool) (fuel : Nat) (url : String)
    (h200 : (make_request t (dirUrlOf url)).code = 200) :
    ((listable_check t scrape md pd sl fuel url).1.headD
        emptyResponse).is_listable = true ↔
      markers_found (strToLower (transportBody t (dirUrlOf url))) = true := by
  cases fuel with
  | zero =>
    simp only [listable_check]
    rw [(listableBody_first t scrape md pd sl (fun u => ([], [u])) url).2]
    simp [h200]
  | succ f =>
    simp only [listable_check]
    rw [(listableBody_first t scrape md pd sl _ url).2]
    simp [h200]

/-- Transport used for the C9 witness: 200 with a listing marker. -/
def c9_transport : Transport :=
  fun _ => HttpResult.success 200 "" "Index of /pub - Parent Directory"

theorem listable_markers_detection_witness :
    ((listable_check c9_transport (fun _ _ => []) none 0 false 0
        "http://x/pub").1.headD emptyResponse).is_listable = true ↔
      markers_found (strToLower (transportBody c9_transport
        (dirUrlOf "http://x/pub"))) = true :=
  listable_markers_detection c9_transport (fun _ _ => []) none 0 false 0
    "http://x/pub" (by decide)

/-- C10: the first finding returned by `listable_check` always has
is_directory true and the returned list is never empty, whatever the
secondary GET returned (transport failure with code 0 included), and its
is_listable flag can only be true in the 200-with-marker case. -/
theorem listable_first_finding_directory (t : Transport)
    (scrape : String → String → List String) (md : Option Int) (pd : Int)
    (sl : Bool) (fuel : Nat) (url : String) :
    (listable_check t scrape md pd sl fuel url).1 ≠ []
    ∧ ((listable_check t scrape md pd sl fuel url).1.headD
        emptyResponse).is_directory = true
    ∧ (((listable_check t scrape md pd sl fuel url).1.headD
          emptyResponse).is_listable = true →
        (make_request t (dirUrlOf url)).code = 200 ∧
          markers_found (strToLower (transportBody t (dirUrlOf url))) = true) := by
  cases fuel with
  | zero =>
    have h := listableBody_first t scrape md pd sl (fun u => ([], [u])) url
    simp only [listable_check]
    refine ⟨h.1, by rw [h.2], ?_⟩
    rw [h.2]
    intro hl
    simp only [Bool.and_eq_true, decide_eq_true_eq] at hl
    exact hl
  | succ f =>
    have h := listableBody_first t scrape md pd sl
      (fun u =>
        ((listable_check t scrape md pd sl f u).1,
          u :: (listable_check t scrape md pd sl f u).2)) url
    simp only [listable_check]
    refine ⟨h.1, by rw [h.2], ?_⟩
    rw [h.2]
    intro hl
    simp only [Bool.and_eq_true, decide_eq_true_eq] at hl
    exact hl

/-- Transport used for the C10 witness. -/
def c10_transport : Transport :=
  fun _ => HttpResult.success 200 "" "directory listing for /pub"

theorem listable_first_finding_directory_witness :
    (make_request c10_transport (dirUrlOf "http://x/pub")).code = 200 ∧
      markers_found (strToLower (transportBody c10_transport
        (dirUrlOf "http://x/pub"))) = true :=
  (listable_first_finding_directory c10_transport (fun _ _ => []) none 0
    false 0 "http://x/pub").2.2 (by decide)

theorem listable_descents_bounded_aux (t : Transport)
    (scrape : String → String → List String) (pd : Int) (sl : Bool) (m : Int) :
    ∀ (fuel : Nat) (url u' : String),
      u' ∈ (listable_check t scrape (some m) pd sl fuel url).2 →
      scraped_depth u' pd ≤ m
  | 0, url, u' => by
    intro h
    simp only [listable_check] at h
    have h2 := listableBody_snd_sub t scrape (some m) pd sl _ url u' h
    rcases scrapedLoop_snd_mem _ (some m) pd _ u' h2 with ⟨u, _, hrec, _, hbound⟩
    simp only [List.mem_singleton] at hrec
    subst hrec
    exact hbound m rfl
  | fuel + 1, url, u' => by
    intro h
    simp only [listable_check] at h
    have h2 := listableBody_snd_sub t scrape (some m) pd sl _ url u' h
    rcases scrapedLoop_snd_mem _ (some m) pd _ u' h2 with ⟨u, _, hrec, _, hbound⟩
    simp only [List.mem_cons] at hrec
    rcases hrec with rfl | hrec
    · exact hbound m rfl
    · exact listable_descents_bounded_aux t scrape pd sl m fuel u u' hrec

/-- C5: with max_recursion_depth set to m, the in-process recursion of
`listable_check` never descends into a scraped directory URL whose
computed depth (slash count, minus 1 for the trailing slash, minus
parent_depth) exceeds m — every URL in the descent log respects the
bound — and any scraped directory URL over the bound is instead emitted
as a fabricated directory finding by the scraping loop. -/
theorem listable_recursion_depth_bounded (t : Transport)
    (scrape : String → String → List String) (pd : Int) (sl : Bool) (m : Int) :
    (∀ (fuel : Nat) (url u' : String),
      u' ∈ (listable_check t scrape (some m) pd sl fuel url).2 →
      scraped_depth u' pd ≤ m)
    ∧ ∀ (rec_fn : String → List RequestResponse × List String)
        (l : List String) (u : String), u ∈ l → endsWithChar u '/' = true →
        m < scraped_depth u pd →
        fabricate_request_response u true false ∈
          (scrapedLoop rec_fn (some m) pd l).1 :=
  ⟨listable_descents_bounded_aux t scrape pd sl m,
   fun rec_fn l u => scrapedLoop_deep_fabricated rec_fn m pd l u⟩

/-- Transport used for the C5 witness: a listable directory page. -/
def c5_transport : Transport :=
  fun _ => HttpResult.success 200 "" "parent directory"

/-- Scraper used for the C5 witness: every page links one subdirectory. -/
def c5_scrape : String → String → List String :=
  fun _ dir_url => [dir_url ++ "sub/"]

theorem listable_recursion_depth_bounded_witness :
    scraped_depth "http://x/pub/sub/" 3 ≤ 1 ∧
      fabricate_request_response "http://x/a/b/" true false ∈
        (scrapedLoop (fun u => ([], [u])) (some 0) 0 ["http://x/a/b/"]).1 :=
  ⟨(listable_recursion_depth_bounded c5_transport c5_scrape 3 true 1).1 1
      "http://x/pub" "http://x/pub/sub/" (by decide),
   (listable_recursion_depth_bounded c5_transport c5_scrape 0 false 0).2
      (fun u => ([], [u])) ["http://x/a/b/"] "http://x/a/b/" (by decide)
      (by decide) (by decide)⟩

end Dirble
